import Mathlib

/-!
Shallow embedding of the participation & assignment consistency engine of
the event-system repository (`src/events/events.service.ts`), together with
proofs about its operations.

Modelling conventions:
* Mongo ObjectIds are modelled as `Nat`; phone numbers as `String`.
* `Date` timestamps are modelled as `Nat` values passed in as a `now`
  parameter.
* The document store is a `Store` record holding the three collections as
  lists; `Document.save()` replaces the document with the same id in its
  collection, and `findOne` / `findById` return the first document with a
  matching id.
* Errors are modelled by their kind.  The correspondence with the source is:
  `NotFoundException` = `Err.notFound`, `UnauthorizedException` =
  `Err.forbidden`, `HttpException(..., BAD_REQUEST)` = `Err.conflict`
  (the spec's `Conflict`), `HttpException(..., INTERNAL_SERVER_ERROR)` =
  `Err.internal`.  `Err.partialFailure` is the spec's distinct
  `PartialFailure` kind; the source has no such error type, so no modelled
  operation ever produces it.
* The dual-write operations (`addMarketerToEvent`, `removeMarketerFromEvent`)
  run `Promise.all` over two independent single-document writes.  The outcome
  of each write is modelled by a boolean parameter (`eventSaveOk`,
  `userSaveOk`): a write that succeeds commits its effect, a write that fails
  leaves its document untouched, and `Promise.all` rejects when either write
  fails.  Single-document operations with no failure handling of their own
  model the store write as succeeding.
-/

inductive Role
  | Marketer
  | Concierge
  | Admin
  | AttendeeRole
deriving DecidableEq, Repr

inductive ReqStatus
  | Pending
  | Approved
  | Rejected
deriving DecidableEq, Repr

/-- A `ConciergeRequest` subdocument embedded in an event.  `id` is the
subdocument `_id`. -/
structure ConciergeRequest where
  id : Nat
  user : Nat
  status : ReqStatus
  requestedAt : Nat
  reviewedAt : Option Nat
deriving DecidableEq, Repr

structure Event where
  id : Nat
  marketers : List Nat
  conciergeRequests : List ConciergeRequest
deriving DecidableEq, Repr

structure User where
  id : Nat
  role : Role
  eventParticipation : List Nat
deriving DecidableEq, Repr

structure Attendee where
  id : Nat
  event : Nat
  phone : String
  checkedIn : Bool
  checkedInBy : Option Nat
  checkedInTime : Option Nat
deriving DecidableEq, Repr

/-- Error kinds of the engine (see the modelling conventions above). -/
inductive Err
  | notFound
  | forbidden
  | conflict
  | partialFailure
  | internal
deriving DecidableEq, Repr

/-- The document store: the three collections touched by the engine. -/
structure Store where
  events : List Event
  users : List User
  attendees : List Attendee
deriving DecidableEq, Repr

/-- Replace the first element satisfying `p` by its image under `f`
(in-memory mutation of the document found by `find` / an update keyed by a
unique id). -/
def updateFirst (p : α → Bool) (f : α → α) : List α → List α
  | [] => []
  | a :: l => if p a then f a :: l else a :: updateFirst p f l

/-- `EventsService.findOne`: the event with the given id, if any. -/
def findEvent (st : Store) (eventId : Nat) : Option Event :=
  st.events.find? (fun e => e.id == eventId)

/-- `event.save()`: persist the (mutated) event document. -/
def saveEvent (st : Store) (e : Event) : Store :=
  { st with events := updateFirst (fun x => x.id == e.id) (fun _ => e) st.events }

/-- Modelled from the spec: `UsersService.findById` is not under `src/`; per
§2 the Entity Store Adapter does a per-aggregate load, returning the user
with the given id. -/
def findUser (st : Store) (userId : Nat) : Option User :=
  st.users.find? (fun u => u.id == userId)

/-- `user.save()`: persist the (mutated) user document. -/
def saveUser (st : Store) (u : User) : Store :=
  { st with users := updateFirst (fun x => x.id == u.id) (fun _ => u) st.users }

/-- Modelled from the spec: `UsersService.addEventParticipation` is not under
`src/`; per §3 `eventParticipation` is a set of event identifiers, so the
write adds `eventId` to the user's set. -/
def addEventParticipation (st : Store) (userId eventId : Nat) : Store :=
  match findUser st userId with
  | none => st
  | some u =>
      if u.eventParticipation.contains eventId then st
      else saveUser st { u with eventParticipation := u.eventParticipation ++ [eventId] }

/-- Modelled from the spec: `UsersService.removeEventParticipation` is not
under `src/`; per §3/§4.1 the write removes `eventId` from the user's
`eventParticipation` set. -/
def removeEventParticipation (st : Store) (userId eventId : Nat) : Store :=
  match findUser st userId with
  | none => st
  | some u =>
      saveUser st
        { u with eventParticipation := u.eventParticipation.filter (fun e => e != eventId) }

/-- Modelled from the spec: `AttendeesService.findByQuery` is not under
`src/`; per §2/§4.3 the Attendee Repository looks records up by
(event, phone) and may return several, in store order. -/
def findAttendeesByQuery (st : Store) (eventId : Nat) (phone : String) : List Attendee :=
  st.attendees.filter (fun a => a.phone == phone && a.event == eventId)

/-- Modelled from the spec: `AttendeesService.update` is not under `src/`;
it patches the attendee record with the given id. -/
def updateAttendee (st : Store) (attendeeId : Nat) (f : Attendee → Attendee) : Store :=
  { st with attendees := updateFirst (fun a => a.id == attendeeId) f st.attendees }

/-- Whether user `u` has a Pending request on event `e`: the duplicate check
of `requestConcierge` (events.service.ts:197). -/
def hasPending (e : Event) (u : Nat) : Bool :=
  e.conciergeRequests.any (fun r => r.user == u && r.status == ReqStatus.Pending)

/-- The `conciergeApproved` check of `checkInAttendee`
(events.service.ts:324-326): whether the event's set of Approved concierge
requests contains `c`. -/
def isApprovedConcierge (e : Event) (c : Nat) : Bool :=
  e.conciergeRequests.any (fun r => r.user == c && r.status == ReqStatus.Approved)

/-- `EventsService.requestConcierge` (events.service.ts:191-211).  `newId` is
the store-generated `_id` of the new subdocument; `now` is the current time. -/
def requestConcierge (st : Store) (eventId userId now newId : Nat) :
    Store × Except Err Unit :=
  match findEvent st eventId with
  | none => (st, Except.error Err.notFound)
  | some event =>
      if hasPending event userId then
        (st, Except.error Err.conflict)
      else
        let event1 := { event with
          conciergeRequests :=
            event.conciergeRequests ++
              [{ id := newId, user := userId, status := ReqStatus.Pending,
                 requestedAt := now, reviewedAt := none }] }
        (saveEvent st event1, Except.ok ())

/-- `EventsService.reviewConciergeRequest` (events.service.ts:265-279).  The
source takes `adminId` but never reads it (the `reviewedBy` logic was
removed). -/
def reviewConciergeRequest (st : Store) (eventId requestId : Nat) (approve : Bool)
    (adminId now : Nat) : Store × Except Err Unit :=
  match findEvent st eventId with
  | none => (st, Except.error Err.notFound)
  | some event =>
      match event.conciergeRequests.find? (fun r => r.id == requestId) with
      | none => (st, Except.error Err.notFound)
      | some req =>
          if req.status != ReqStatus.Pending then
            (st, Except.error Err.conflict)
          else
            let event1 := { event with
              conciergeRequests :=
                updateFirst (fun r => r.id == requestId)
                  (fun r => { r with
                    status := if approve then ReqStatus.Approved else ReqStatus.Rejected,
                    reviewedAt := some now })
                  event.conciergeRequests }
            (saveEvent st event1, Except.ok ())

/-- `EventsService.cancelConciergeRequest` (events.service.ts:304-312):
`findIndex` of the first Pending request of the user, then `splice`. -/
def cancelConciergeRequest (st : Store) (eventId userId : Nat) : Store × Except Err Unit :=
  match findEvent st eventId with
  | none => (st, Except.error Err.notFound)
  | some event =>
      match event.conciergeRequests.findIdx?
          (fun r => r.user == userId && r.status == ReqStatus.Pending) with
      | none => (st, Except.error Err.notFound)
      | some i =>
          (saveEvent st { event with conciergeRequests := event.conciergeRequests.eraseIdx i },
           Except.ok ())

/-- `EventsService.addMarketerToEvent` (events.service.ts:89-121): load event
and user, role check, idempotent-member check, then `Promise.all` over the
two writes; a rejection of either write is wrapped in a generic
INTERNAL_SERVER_ERROR `HttpException`, and on success the event is
re-fetched. -/
def addMarketerToEvent (st : Store) (eventId marketerId : Nat)
    (eventSaveOk userSaveOk : Bool) : Store × Except Err Event :=
  match findEvent st eventId, findUser st marketerId with
  | none, _ => (st, Except.error Err.notFound)
  | some _, none => (st, Except.error Err.notFound)
  | some event, some marketer =>
      if marketer.role != Role.Marketer then
        (st, Except.error Err.forbidden)
      else if event.marketers.contains marketerId then
        (st, Except.ok event)
      else
        let event1 := { event with marketers := event.marketers ++ [marketerId] }
        let st1 := if eventSaveOk then saveEvent st event1 else st
        let st2 := if userSaveOk then addEventParticipation st1 marketerId eventId else st1
        if eventSaveOk && userSaveOk then
          match findEvent st2 eventId with
          | some e => (st2, Except.ok e)
          | none => (st2, Except.error Err.notFound)
        else
          (st2, Except.error Err.internal)

/-- `EventsService.removeMarketerFromEvent` (events.service.ts:123-144): the
whole body sits in a `try` whose `catch` rethrows every error — including the
`NotFoundException` of `findOne` — as a generic INTERNAL_SERVER_ERROR
`HttpException`. -/
def removeMarketerFromEvent (st : Store) (eventId marketerId : Nat)
    (eventSaveOk userSaveOk : Bool) : Store × Except Err Event :=
  match findEvent st eventId with
  | none => (st, Except.error Err.internal)
  | some event =>
      let event1 := { event with marketers := event.marketers.filter (fun m => m != marketerId) }
      let st1 := if eventSaveOk then saveEvent st event1 else st
      let st2 := if userSaveOk then removeEventParticipation st1 marketerId eventId else st1
      if eventSaveOk && userSaveOk then
        match findEvent st2 eventId with
        | some e => (st2, Except.ok e)
        | none => (st2, Except.error Err.internal)
      else
        (st2, Except.error Err.internal)

/-- `EventsService.checkInAttendee` (events.service.ts:315-365). -/
def checkInAttendee (st : Store) (eventId : Nat) (phone : String)
    (conciergeId now : Nat) : Store × Except Err Unit :=
  match findEvent st eventId with
  | none => (st, Except.error Err.notFound)
  | some event =>
      if !(isApprovedConcierge event conciergeId) then
        (st, Except.error Err.forbidden)
      else
        match findAttendeesByQuery st eventId phone with
        | [] => (st, Except.error Err.notFound)
        | attendee :: _ =>
            if attendee.checkedIn then
              (st, Except.error Err.conflict)
            else
              (updateAttendee st attendee.id (fun a =>
                 { a with
                   checkedIn := true
                   checkedInBy := some conciergeId
                   checkedInTime := some now }),
               Except.ok ())

/-- Per-event projection of `EventsService.getConciergeAssignments`
(events.service.ts:225-237): `find` returns the first request of the user in
request order; `none` models the `undefined` status of a user with no
request. -/
def myConciergeStatus (event : Event) (userId : Nat) : Option ReqStatus :=
  (event.conciergeRequests.find? (fun r => r.user == userId)).map (fun r => r.status)

/-- The spec's reading of `myStatus` (§4.2): "the most recently created
request's status for that (event, user), or none".  Requests are kept in
insertion order (§3), so the most recently created matching request is the
last one.  This definition follows the spec's words and exists only to be
compared with `myConciergeStatus`, which follows the source. -/
def specMostRecentStatus (event : Event) (userId : Nat) : Option ReqStatus :=
  ((event.conciergeRequests.filter (fun r => r.user == userId)).getLast?).map
    (fun r => r.status)

/-- Number of Pending requests of user `u` on event `e`. -/
def pendingCount (e : Event) (u : Nat) : Nat :=
  e.conciergeRequests.countP (fun r => r.user == u && r.status == ReqStatus.Pending)

/-- The uniqueness invariant of §3: at most one Pending request per user on
the event. -/
def EventInv (e : Event) : Prop := ∀ u, pendingCount e u ≤ 1

/-- Every event in the store satisfies the uniqueness invariant. -/
def StoreInv (st : Store) : Prop := ∀ e ∈ st.events, EventInv e

/-- An event holding a single Pending request of user 10 (request id 50). -/
def evPending : Event :=
  { id := 1, marketers := [],
    conciergeRequests :=
      [{ id := 50, user := 10, status := ReqStatus.Pending, requestedAt := 100,
         reviewedAt := none }] }

/-- A store holding just `evPending`. -/
def stPending : Store := { events := [evPending], users := [], attendees := [] }

/-- An event with no marketers and no concierge requests. -/
def evBlank : Event := { id := 1, marketers := [], conciergeRequests := [] }

/-- A marketer user not yet participating anywhere. -/
def usrMarketer : User := { id := 5, role := Role.Marketer, eventParticipation := [] }

/-- A store holding `evBlank` and `usrMarketer`. -/
def stJoin : Store := { events := [evBlank], users := [usrMarketer], attendees := [] }

/-- An event whose only concierge request is an Approved one of user 9. -/
def evApproved : Event :=
  { id := 1, marketers := [],
    conciergeRequests :=
      [{ id := 60, user := 9, status := ReqStatus.Approved, requestedAt := 5,
         reviewedAt := some 6 }] }

/-- An attendee of event 1, not yet checked in. -/
def attFresh : Attendee :=
  { id := 100, event := 1, phone := "p1", checkedIn := false, checkedInBy := none,
    checkedInTime := none }

/-- A second attendee of event 1 with the same phone number. -/
def attDup : Attendee :=
  { id := 101, event := 1, phone := "p1", checkedIn := false, checkedInBy := none,
    checkedInTime := none }

/-- A store for the check-in workflow: `evApproved` plus two attendees sharing
a phone number. -/
def stCheckIn : Store :=
  { events := [evApproved], users := [], attendees := [attFresh, attDup] }

/-- An empty store: no events, users or attendees. -/
def stEmpty : Store := { events := [], users := [], attendees := [] }

/-- An event holding, for user 7, an older Rejected request followed by a
newer Pending one. -/
def evRejectedThenPending : Event :=
  { id := 1, marketers := [],
    conciergeRequests :=
      [{ id := 10, user := 7, status := ReqStatus.Rejected, requestedAt := 1,
         reviewedAt := some 2 },
       { id := 11, user := 7, status := ReqStatus.Pending, requestedAt := 3,
         reviewedAt := none }] }

/-! ### Generic list lemmas -/

theorem updateFirst_congr {p q : α → Bool} (f : α → α) (h : ∀ a, p a = q a) :
    ∀ l : List α, updateFirst p f l = updateFirst q f l
  | [] => rfl
  | a :: l => by
      simp only [updateFirst, h a, updateFirst_congr f h l]

theorem mem_updateFirst {p : α → Bool} {f : α → α} :
    ∀ {l : List α} {x : α}, x ∈ updateFirst p f l → x ∈ l ∨ ∃ a, a ∈ l ∧ x = f a := by
  intro l
  induction l with
  | nil => intro x hx; cases hx
  | cons a l ih =>
      intro x hx
      by_cases hp : p a
      · simp only [updateFirst, if_pos hp, List.mem_cons] at hx
        rcases hx with hx | hx
        · exact Or.inr ⟨a, List.mem_cons_self a l, hx⟩
        · exact Or.inl (List.mem_cons_of_mem a hx)
      · simp only [updateFirst, if_neg hp, List.mem_cons] at hx
        rcases hx with hx | hx
        · exact Or.inl (hx ▸ List.mem_cons_self a l)
        · rcases ih hx with h | ⟨b, hb, hxb⟩
          · exact Or.inl (List.mem_cons_of_mem a h)
          · exact Or.inr ⟨b, List.mem_cons_of_mem a hb, hxb⟩

theorem countP_updateFirst_le {p q : α → Bool} {f : α → α}
    (hf : ∀ a, p (f a) = false) :
    ∀ l : List α, (updateFirst q f l).countP p ≤ l.countP p := by
  intro l
  induction l with
  | nil => exact Nat.le_refl _
  | cons a l ih =>
      by_cases hq : q a
      · simp only [updateFirst, if_pos hq, List.countP_cons, hf a, if_false]
        exact Nat.le_add_right _ _ |>.trans (Nat.add_le_add_left (Nat.zero_le _) _)
      · simp only [updateFirst, if_neg hq, List.countP_cons]
        exact Nat.add_le_add_right ih _

theorem find?_updateFirst_const (q : α → Bool) (b : α) (hb : q b = true) :
    ∀ l : List α, (updateFirst q (fun _ => b) l).find? q = (l.find? q).map (fun _ => b) := by
  intro l
  induction l with
  | nil => rfl
  | cons a l ih =>
      by_cases hq : q a
      · rw [show updateFirst q (fun _ => b) (a :: l) = b :: l from by
              simp [updateFirst, hq],
            List.find?_cons_of_pos l hb, List.find?_cons_of_pos l hq,
            Option.map_some']
      · rw [show updateFirst q (fun _ => b) (a :: l) = a :: updateFirst q (fun _ => b) l
              from by simp [updateFirst, hq],
            List.find?_cons_of_neg _ hq, List.find?_cons_of_neg l hq, ih]

theorem find?_updateFirst_agree {q : α → Bool} {f : α → α}
    (hf : ∀ a, q (f a) = q a) :
    ∀ l : List α, (updateFirst q f l).find? q = (l.find? q).map f := by
  intro l
  induction l with
  | nil => rfl
  | cons a l ih =>
      by_cases hq : q a
      · have hfa : q (f a) = true := (hf a).trans (by simpa using hq)
        rw [show updateFirst q f (a :: l) = f a :: l from by simp [updateFirst, hq],
            List.find?_cons_of_pos l hfa, List.find?_cons_of_pos l hq,
            Option.map_some']
      · rw [show updateFirst q f (a :: l) = a :: updateFirst q f l from by
              simp [updateFirst, hq],
            List.find?_cons_of_neg _ hq, List.find?_cons_of_neg l hq, ih]

theorem find?_first {p : α → Bool} {r : α} (hr : p r = true) :
    ∀ (l1 : List α) (l2 : List α), (∀ x ∈ l1, p x = false) →
      (l1 ++ r :: l2).find? p = some r := by
  intro l1
  induction l1 with
  | nil => intro l2 _; simp [List.find?, hr]
  | cons a l1 ih =>
      intro l2 h
      have ha : p a = false := h a (List.mem_cons_self a l1)
      simp only [List.cons_append, List.find?, ha]
      exact ih l2 (fun x hx => h x (List.mem_cons_of_mem a hx))

theorem findIdx?_start_first {p : α → Bool} {r : α} (hr : p r = true) :
    ∀ (l1 : List α) (l2 : List α), (∀ x ∈ l1, p x = false) →
      ∀ i, List.findIdx? p (l1 ++ r :: l2) i = some (l1.length + i) := by
  intro l1
  induction l1 with
  | nil => intro l2 _ i; simp [List.findIdx?, hr]
  | cons a l1 ih =>
      intro l2 h i
      have ha : p a = false := h a (List.mem_cons_self a l1)
      rw [List.cons_append,
          show List.findIdx? p (a :: (l1 ++ r :: l2)) i =
            if p a then some i else List.findIdx? p (l1 ++ r :: l2) (i + 1) from rfl]
      simp only [ha, Bool.false_eq_true, if_false]
      rw [ih l2 (fun x hx => h x (List.mem_cons_of_mem a hx)) (i + 1)]
      simp only [List.length_cons]
      exact congrArg some (by omega)

theorem findIdx?_start_none {p : α → Bool} :
    ∀ l : List α, (∀ x ∈ l, p x = false) → ∀ i, List.findIdx? p l i = none := by
  intro l
  induction l with
  | nil => intro _ i; rfl
  | cons a l ih =>
      intro h i
      have ha : p a = false := h a (List.mem_cons_self a l)
      rw [show List.findIdx? p (a :: l) i =
            if p a then some i else List.findIdx? p l (i + 1) from rfl]
      simp only [ha, Bool.false_eq_true, if_false]
      exact ih (fun x hx => h x (List.mem_cons_of_mem a hx)) (i + 1)

theorem eraseIdx_append_cons : ∀ (l1 : List α) (r : α) (l2 : List α),
    (l1 ++ r :: l2).eraseIdx l1.length = l1 ++ l2
  | [], _, _ => rfl
  | a :: l1, r, l2 => by
      show a :: (l1 ++ r :: l2).eraseIdx l1.length = a :: (l1 ++ l2)
      rw [eraseIdx_append_cons l1 r l2]

/-! ### Store-level lemmas -/

theorem saveEvent_users (st : Store) (e : Event) : (saveEvent st e).users = st.users := rfl

theorem saveEvent_attendees (st : Store) (e : Event) :
    (saveEvent st e).attendees = st.attendees := rfl

theorem saveUser_events (st : Store) (u : User) : (saveUser st u).events = st.events := rfl

theorem findEvent_eq_of_events_eq {st1 st2 : Store} (h : st1.events = st2.events)
    (eid : Nat) : findEvent st1 eid = findEvent st2 eid := by
  simp [findEvent, h]

theorem findUser_eq_of_users_eq {st1 st2 : Store} (h : st1.users = st2.users)
    (uid : Nat) : findUser st1 uid = findUser st2 uid := by
  simp [findUser, h]

theorem addEventParticipation_events (st : Store) (uid eid : Nat) :
    (addEventParticipation st uid eid).events = st.events := by
  unfold addEventParticipation
  cases findUser st uid with
  | none => rfl
  | some u =>
      show (if u.eventParticipation.contains eid then st
        else saveUser st
          { u with eventParticipation := u.eventParticipation ++ [eid] }).events = st.events
      by_cases hc : u.eventParticipation.contains eid
      · rw [if_pos hc]
      · rw [if_neg hc]
        rfl

theorem removeEventParticipation_events (st : Store) (uid eid : Nat) :
    (removeEventParticipation st uid eid).events = st.events := by
  unfold removeEventParticipation
  cases findUser st uid with
  | none => rfl
  | some u => rfl

theorem updateAttendee_events (st : Store) (aid : Nat) (f : Attendee → Attendee) :
    (updateAttendee st aid f).events = st.events := rfl

theorem findEvent_saveEvent {st : Store} {eid : Nat} {e : Event} (e1 : Event)
    (h : findEvent st eid = some e) (hid : e1.id = e.id) :
    findEvent (saveEvent st e1) eid = some e1 := by
  have heq : e.id = eid := by simpa using List.find?_some h
  have hb : (e1.id == eid) = true := by simp [hid, heq]
  show (updateFirst (fun x => x.id == e1.id) (fun _ => e1) st.events).find?
      (fun x => x.id == eid) = some e1
  have h2 : List.find? (fun x : Event => x.id == eid) st.events = some e := h
  rw [updateFirst_congr (fun _ => e1) (fun a => by rw [hid, heq]) st.events,
      find?_updateFirst_const (fun x : Event => x.id == eid) e1 hb st.events, h2,
      Option.map_some']

theorem findUser_saveUser {st : Store} {uid : Nat} {u : User} (u1 : User)
    (h : findUser st uid = some u) (hid : u1.id = u.id) :
    findUser (saveUser st u1) uid = some u1 := by
  have heq : u.id = uid := by simpa using List.find?_some h
  have hb : (u1.id == uid) = true := by simp [hid, heq]
  show (updateFirst (fun x => x.id == u1.id) (fun _ => u1) st.users).find?
      (fun x => x.id == uid) = some u1
  have h2 : List.find? (fun x : User => x.id == uid) st.users = some u := h
  rw [updateFirst_congr (fun _ => u1) (fun a => by rw [hid, heq]) st.users,
      find?_updateFirst_const (fun x : User => x.id == uid) u1 hb st.users, h2,
      Option.map_some']

theorem StoreInv_saveEvent {st : Store} {e1 : Event} (hinv : StoreInv st)
    (he1 : EventInv e1) : StoreInv (saveEvent st e1) := by
  intro x hx
  rcases mem_updateFirst hx with hx | ⟨a, _, rfl⟩
  · exact hinv x hx
  · exact he1

theorem StoreInv_of_events_eq {st1 st2 : Store} (h : st2.events = st1.events)
    (hinv : StoreInv st1) : StoreInv st2 := by
  intro e he
  exact hinv e (h ▸ he)

/-! ### Invariant-transfer lemmas for single events -/

theorem EventInv_setMarketers {e : Event} (hinv : EventInv e) (ms : List Nat) :
    EventInv { e with marketers := ms } := fun u => hinv u

theorem hasPending_false_count {e : Event} {u : Nat} (h : hasPending e u = false) :
    pendingCount e u = 0 := by
  unfold hasPending at h
  unfold pendingCount
  rw [List.countP_eq_zero]
  simpa [List.any_eq_false] using h

theorem EventInv_request {e : Event} (hinv : EventInv e) {uid : Nat}
    (h : hasPending e uid = false) (rid now : Nat) :
    EventInv { e with
      conciergeRequests :=
        e.conciergeRequests ++
          [{ id := rid, user := uid, status := ReqStatus.Pending, requestedAt := now,
             reviewedAt := none }] } := by
  intro u
  show (e.conciergeRequests ++ [_]).countP _ ≤ 1
  rw [List.countP_append]
  by_cases hu : uid = u
  · subst hu
    have h0 : pendingCount e uid = 0 := hasPending_false_count h
    unfold pendingCount at h0
    rw [h0]
    simp [List.countP_cons]
  · have hne : ((uid : Nat) == u) = false := by simp [hu]
    simp only [List.countP_cons, List.countP_nil, hne, Bool.false_and, if_false]
    exact hinv u

theorem EventInv_review {e : Event} (hinv : EventInv e) (reqId now : Nat)
    (approve : Bool) :
    EventInv { e with
      conciergeRequests :=
        updateFirst (fun r => r.id == reqId)
          (fun r => { r with
            status := if approve then ReqStatus.Approved else ReqStatus.Rejected,
            reviewedAt := some now })
          e.conciergeRequests } := by
  intro u
  refine le_trans (countP_updateFirst_le ?_ e.conciergeRequests) (hinv u)
  intro r
  cases approve <;> simp

theorem EventInv_erase {e : Event} (hinv : EventInv e) (i : Nat) :
    EventInv { e with conciergeRequests := e.conciergeRequests.eraseIdx i } := by

  intro u
  exact le_trans ((List.eraseIdx_sublist _ i).countP_le _) (hinv u)

/-! ### Equation lemmas: one per branch of each operation -/

theorem requestConcierge_eq_missing {st : Store} {eid : Nat} (uid now rid : Nat)
    (h : findEvent st eid = none) :
    requestConcierge st eid uid now rid = (st, Except.error Err.notFound) := by
  simp [requestConcierge, h]

theorem requestConcierge_eq_dup {st : Store} {eid : Nat} {e : Event} (uid now rid : Nat)
    (h : findEvent st eid = some e) (hp : hasPending e uid = true) :
    requestConcierge st eid uid now rid = (st, Except.error Err.conflict) := by
  simp [requestConcierge, h, hp]

theorem requestConcierge_eq_ok {st : Store} {eid : Nat} {e : Event} (uid now rid : Nat)
    (h : findEvent st eid = some e) (hp : hasPending e uid = false) :
    requestConcierge st eid uid now rid =
      (saveEvent st { e with
        conciergeRequests :=
          e.conciergeRequests ++
            [{ id := rid, user := uid, status := ReqStatus.Pending,
               requestedAt := now, reviewedAt := none }] },
       Except.ok ()) := by
  simp [requestConcierge, h, hp]

theorem reviewConciergeRequest_eq_missing {st : Store} {eid : Nat}
    (reqId : Nat) (approve : Bool) (adm now : Nat) (h : findEvent st eid = none) :
    reviewConciergeRequest st eid reqId approve adm now =
      (st, Except.error Err.notFound) := by
  simp [reviewConciergeRequest, h]

theorem reviewConciergeRequest_eq_noreq {st : Store} {eid : Nat} {e : Event}
    (reqId : Nat) (approve : Bool) (adm now : Nat) (h : findEvent st eid = some e)
    (hr : e.conciergeRequests.find? (fun r => r.id == reqId) = none) :
    reviewConciergeRequest st eid reqId approve adm now =
      (st, Except.error Err.notFound) := by
  simp [reviewConciergeRequest, h, hr]

theorem reviewConciergeRequest_eq_terminal {st : Store} {eid : Nat} {e : Event}
    {req : ConciergeRequest} (reqId : Nat) (approve : Bool) (adm now : Nat)
    (h : findEvent st eid = some e)
    (hr : e.conciergeRequests.find? (fun r => r.id == reqId) = some req)
    (hs : req.status ≠ ReqStatus.Pending) :
    reviewConciergeRequest st eid reqId approve adm now =
      (st, Except.error Err.conflict) := by
  simp [reviewConciergeRequest, h, hr, hs]

theorem reviewConciergeRequest_eq_ok {st : Store} {eid : Nat} {e : Event}
    {req : ConciergeRequest} (reqId : Nat) (approve : Bool) (adm now : Nat)
    (h : findEvent st eid = some e)
    (hr : e.conciergeRequests.find? (fun r => r.id == reqId) = some req)
    (hs : req.status = ReqStatus.Pending) :
    reviewConciergeRequest st eid reqId approve adm now =
      (saveEvent st { e with
        conciergeRequests :=
          updateFirst (fun r => r.id == reqId)
            (fun r => { r with
              status := if approve then ReqStatus.Approved else ReqStatus.Rejected,
              reviewedAt := some now })
            e.conciergeRequests },
       Except.ok ()) := by
  simp [reviewConciergeRequest, h, hr, hs]

theorem cancelConciergeRequest_eq_missing {st : Store} {eid : Nat} (uid : Nat)
    (h : findEvent st eid = none) :
    cancelConciergeRequest st eid uid = (st, Except.error Err.notFound) := by
  simp [cancelConciergeRequest, h]

theorem cancelConciergeRequest_eq_nopending {st : Store} {eid : Nat} {e : Event}
    (uid : Nat) (h : findEvent st eid = some e)
    (hi : e.conciergeRequests.findIdx?
      (fun r => r.user == uid && r.status == ReqStatus.Pending) = none) :
    cancelConciergeRequest st eid uid = (st, Except.error Err.notFound) := by
  simp [cancelConciergeRequest, h, hi]

theorem cancelConciergeRequest_eq_ok {st : Store} {eid : Nat} {e : Event} {i : Nat}
    (uid : Nat) (h : findEvent st eid = some e)
    (hi : e.conciergeRequests.findIdx?
      (fun r => r.user == uid && r.status == ReqStatus.Pending) = some i) :
    cancelConciergeRequest st eid uid =
      (saveEvent st { e with conciergeRequests := e.conciergeRequests.eraseIdx i },
       Except.ok ()) := by
  simp [cancelConciergeRequest, h, hi]

theorem addMarketerToEvent_eq_noevent {st : Store} {eid : Nat} (uid : Nat)
    (eOk uOk : Bool) (h : findEvent st eid = none) :
    addMarketerToEvent st eid uid eOk uOk = (st, Except.error Err.notFound) := by
  simp [addMarketerToEvent, h]

theorem addMarketerToEvent_eq_nouser {st : Store} {eid uid : Nat} {e : Event}
    (eOk uOk : Bool) (h : findEvent st eid = some e) (hu : findUser st uid = none) :
    addMarketerToEvent st eid uid eOk uOk = (st, Except.error Err.notFound) := by
  simp [addMarketerToEvent, h, hu]

theorem addMarketerToEvent_eq_forbidden {st : Store} {eid uid : Nat} {e : Event}
    {u : User} (eOk uOk : Bool) (h : findEvent st eid = some e)
    (hu : findUser st uid = some u) (hrole : u.role ≠ Role.Marketer) :
    addMarketerToEvent st eid uid eOk uOk = (st, Except.error Err.forbidden) := by
  simp [addMarketerToEvent, h, hu, hrole]

theorem addMarketerToEvent_eq_member {st : Store} {eid uid : Nat} {e : Event}
    {u : User} (eOk uOk : Bool) (h : findEvent st eid = some e)
    (hu : findUser st uid = some u) (hrole : u.role = Role.Marketer)
    (hm : e.marketers.contains uid = true) :
    addMarketerToEvent st eid uid eOk uOk = (st, Except.ok e) := by
  simp only [addMarketerToEvent, h, hu, hrole]
  rw [if_neg (by simp), if_pos hm]

theorem addMarketerToEvent_eq_add {st : Store} {eid uid : Nat} {e : Event}
    {u : User} (h : findEvent st eid = some e) (hu : findUser st uid = some u)
    (hrole : u.role = Role.Marketer) (hm : e.marketers.contains uid = false) :
    addMarketerToEvent st eid uid true true =
      (addEventParticipation
        (saveEvent st { e with marketers := e.marketers ++ [uid] }) uid eid,
       Except.ok { e with marketers := e.marketers ++ [uid] }) := by
  have hfe2 : findEvent (addEventParticipation
      (saveEvent st { e with marketers := e.marketers ++ [uid] }) uid eid) eid =
      some { e with marketers := e.marketers ++ [uid] } := by
    rw [findEvent_eq_of_events_eq (addEventParticipation_events _ uid eid) eid]
    exact findEvent_saveEvent _ h rfl
  simp only [addMarketerToEvent, h, hu, hrole]
  rw [if_neg (by simp), if_neg (by simpa using hm)]
  simp [hfe2]

theorem addMarketerToEvent_eq_failUser {st : Store} {eid uid : Nat} {e : Event}
    {u : User} (h : findEvent st eid = some e) (hu : findUser st uid = some u)
    (hrole : u.role = Role.Marketer) (hm : e.marketers.contains uid = false) :
    addMarketerToEvent st eid uid true false =
      (saveEvent st { e with marketers := e.marketers ++ [uid] },
       Except.error Err.internal) := by
  simp only [addMarketerToEvent, h, hu, hrole]
  rw [if_neg (by simp), if_neg (by simpa using hm)]
  simp

theorem addMarketerToEvent_eq_failEvent {st : Store} {eid uid : Nat} {e : Event}
    {u : User} (h : findEvent st eid = some e) (hu : findUser st uid = some u)
    (hrole : u.role = Role.Marketer) (hm : e.marketers.contains uid = false) :
    addMarketerToEvent st eid uid false true =
      (addEventParticipation st uid eid, Except.error Err.internal) := by
  simp only [addMarketerToEvent, h, hu, hrole]
  rw [if_neg (by simp), if_neg (by simpa using hm)]
  simp

theorem addMarketerToEvent_eq_failBoth {st : Store} {eid uid : Nat} {e : Event}
    {u : User} (h : findEvent st eid = some e) (hu : findUser st uid = some u)
    (hrole : u.role = Role.Marketer) (hm : e.marketers.contains uid = false) :
    addMarketerToEvent st eid uid false false = (st, Except.error Err.internal) := by
  simp only [addMarketerToEvent, h, hu, hrole]
  rw [if_neg (by simp), if_neg (by simpa using hm)]
  simp

theorem removeMarketerFromEvent_eq_noevent {st : Store} {eid : Nat} (uid : Nat)
    (eOk uOk : Bool) (h : findEvent st eid = none) :
    removeMarketerFromEvent st eid uid eOk uOk = (st, Except.error Err.internal) := by
  simp [removeMarketerFromEvent, h]

theorem removeMarketerFromEvent_eq_ok {st : Store} {eid : Nat} {e : Event} (uid : Nat)
    (h : findEvent st eid = some e) :
    removeMarketerFromEvent st eid uid true true =
      (removeEventParticipation
        (saveEvent st { e with marketers := e.marketers.filter (fun m => m != uid) })
        uid eid,
       Except.ok { e with marketers := e.marketers.filter (fun m => m != uid) }) := by
  have hfe2 : findEvent (removeEventParticipation
      (saveEvent st { e with marketers := e.marketers.filter (fun m => m != uid) })
      uid eid) eid =
      some { e with marketers := e.marketers.filter (fun m => m != uid) } := by
    rw [findEvent_eq_of_events_eq (removeEventParticipation_events _ uid eid) eid]
    exact findEvent_saveEvent _ h rfl
  simp only [removeMarketerFromEvent, h]
  simp [hfe2]

theorem removeMarketerFromEvent_eq_failUser {st : Store} {eid : Nat} {e : Event}
    (uid : Nat) (h : findEvent st eid = some e) :
    removeMarketerFromEvent st eid uid true false =
      (saveEvent st { e with marketers := e.marketers.filter (fun m => m != uid) },
       Except.error Err.internal) := by
  simp [removeMarketerFromEvent, h]

theorem removeMarketerFromEvent_eq_failEvent {st : Store} {eid : Nat} {e : Event}
    (uid : Nat) (h : findEvent st eid = some e) :
    removeMarketerFromEvent st eid uid false true =
      (removeEventParticipation st uid eid, Except.error Err.internal) := by
  simp [removeMarketerFromEvent, h]

theorem removeMarketerFromEvent_eq_failBoth {st : Store} {eid : Nat} {e : Event}
    (uid : Nat) (h : findEvent st eid = some e) :
    removeMarketerFromEvent st eid uid false false = (st, Except.error Err.internal) := by
  simp [removeMarketerFromEvent, h]

theorem checkInAttendee_eq_noevent {st : Store} {eid : Nat} (ph : String) (c now : Nat)
    (h : findEvent st eid = none) :
    checkInAttendee st eid ph c now = (st, Except.error Err.notFound) := by
  simp [checkInAttendee, h]

theorem checkInAttendee_eq_forbidden {st : Store} {eid : Nat} {e : Event} (ph : String)
    (c now : Nat) (h : findEvent st eid = some e)
    (ha : isApprovedConcierge e c = false) :
    checkInAttendee st eid ph c now = (st, Except.error Err.forbidden) := by
  simp [checkInAttendee, h, ha]

theorem checkInAttendee_eq_noattendee {st : Store} {eid : Nat} {e : Event} (ph : String)
    (c now : Nat) (h : findEvent st eid = some e)
    (ha : isApprovedConcierge e c = true)
    (hq : findAttendeesByQuery st eid ph = []) :
    checkInAttendee st eid ph c now = (st, Except.error Err.notFound) := by
  simp [checkInAttendee, h, ha, hq]

theorem checkInAttendee_eq_already {st : Store} {eid : Nat} {e : Event}
    {a : Attendee} {rest : List Attendee} (ph : String) (c now : Nat)
    (h : findEvent st eid = some e) (ha : isApprovedConcierge e c = true)
    (hq : findAttendeesByQuery st eid ph = a :: rest) (hc : a.checkedIn = true) :
    checkInAttendee st eid ph c now = (st, Except.error Err.conflict) := by
  simp [checkInAttendee, h, ha, hq, hc]

theorem checkInAttendee_eq_ok {st : Store} {eid : Nat} {e : Event}
    {a : Attendee} {rest : List Attendee} (ph : String) (c now : Nat)
    (h : findEvent st eid = some e) (ha : isApprovedConcierge e c = true)
    (hq : findAttendeesByQuery st eid ph = a :: rest) (hc : a.checkedIn = false) :
    checkInAttendee st eid ph c now =
      (updateAttendee st a.id (fun x =>
        { x with
          checkedIn := true
          checkedInBy := some c
          checkedInTime := some now }),
       Except.ok ()) := by
  simp [checkInAttendee, h, ha, hq, hc]

/-! ### Preservation of the uniqueness invariant by every operation -/

theorem StoreInv_requestConcierge {st : Store} (hinv : StoreInv st)
    (eid uid now rid : Nat) : StoreInv (requestConcierge st eid uid now rid).1 := by
  cases hfe : findEvent st eid with
  | none => rw [requestConcierge_eq_missing uid now rid hfe]; exact hinv
  | some e =>
      cases hp : hasPending e uid with
      | true => rw [requestConcierge_eq_dup uid now rid hfe hp]; exact hinv
      | false =>
          rw [requestConcierge_eq_ok uid now rid hfe hp]
          exact StoreInv_saveEvent hinv
            (EventInv_request (hinv e (List.mem_of_find?_eq_some hfe)) hp rid now)

theorem StoreInv_reviewConciergeRequest {st : Store} (hinv : StoreInv st)
    (eid reqId : Nat) (approve : Bool) (adm now : Nat) :
    StoreInv (reviewConciergeRequest st eid reqId approve adm now).1 := by
  cases hfe : findEvent st eid with
  | none =>
      rw [reviewConciergeRequest_eq_missing reqId approve adm now hfe]
      exact hinv
  | some e =>
      cases hfr : e.conciergeRequests.find? (fun r => r.id == reqId) with
      | none =>
          rw [reviewConciergeRequest_eq_noreq reqId approve adm now hfe hfr]
          exact hinv
      | some req =>
          by_cases hs : req.status = ReqStatus.Pending
          · rw [reviewConciergeRequest_eq_ok reqId approve adm now hfe hfr hs]
            exact StoreInv_saveEvent hinv
              (EventInv_review (hinv e (List.mem_of_find?_eq_some hfe)) reqId now approve)
          · rw [reviewConciergeRequest_eq_terminal reqId approve adm now hfe hfr hs]
            exact hinv

theorem StoreInv_cancelConciergeRequest {st : Store} (hinv : StoreInv st)
    (eid uid : Nat) : StoreInv (cancelConciergeRequest st eid uid).1 := by
  cases hfe : findEvent st eid with
  | none => rw [cancelConciergeRequest_eq_missing uid hfe]; exact hinv
  | some e =>
      cases hfi : e.conciergeRequests.findIdx?
          (fun r => r.user == uid && r.status == ReqStatus.Pending) with
      | none => rw [cancelConciergeRequest_eq_nopending uid hfe hfi]; exact hinv
      | some i =>
          rw [cancelConciergeRequest_eq_ok uid hfe hfi]
          exact StoreInv_saveEvent hinv
            (EventInv_erase (hinv e (List.mem_of_find?_eq_some hfe)) i)

theorem StoreInv_checkInAttendee {st : Store} (hinv : StoreInv st) (eid : Nat)
    (ph : String) (c now : Nat) : StoreInv (checkInAttendee st eid ph c now).1 := by
  cases hfe : findEvent st eid with
  | none => rw [checkInAttendee_eq_noevent ph c now hfe]; exact hinv
  | some e =>
      cases ha : isApprovedConcierge e c with
      | false => rw [checkInAttendee_eq_forbidden ph c now hfe ha]; exact hinv
      | true =>
          cases hq : findAttendeesByQuery st eid ph with
          | nil => rw [checkInAttendee_eq_noattendee ph c now hfe ha hq]; exact hinv
          | cons a rest =>
              cases hc : a.checkedIn with
              | true => rw [checkInAttendee_eq_already ph c now hfe ha hq hc]; exact hinv
              | false =>
                  rw [checkInAttendee_eq_ok ph c now hfe ha hq hc]
                  exact StoreInv_of_events_eq (updateAttendee_events st a.id _) hinv

theorem StoreInv_addMarketerToEvent {st : Store} (hinv : StoreInv st)
    (eid uid : Nat) (eOk uOk : Bool) :
    StoreInv (addMarketerToEvent st eid uid eOk uOk).1 := by
  cases hfe : findEvent st eid with
  | none => rw [addMarketerToEvent_eq_noevent uid eOk uOk hfe]; exact hinv
  | some e =>
      cases hfu : findUser st uid with
      | none => rw [addMarketerToEvent_eq_nouser eOk uOk hfe hfu]; exact hinv
      | some u =>
          by_cases hrole : u.role = Role.Marketer
          · cases hm : e.marketers.contains uid with
            | true =>
                rw [addMarketerToEvent_eq_member eOk uOk hfe hfu hrole hm]
                exact hinv
            | false =>
                have hse : StoreInv
                    (saveEvent st { e with marketers := e.marketers ++ [uid] }) :=
                  StoreInv_saveEvent hinv
                    (EventInv_setMarketers (hinv e (List.mem_of_find?_eq_some hfe)) _)
                cases eOk with
                | true =>
                    cases uOk with
                    | true =>
                        rw [addMarketerToEvent_eq_add hfe hfu hrole hm]
                        exact StoreInv_of_events_eq
                          (addEventParticipation_events _ uid eid) hse
                    | false =>
                        rw [addMarketerToEvent_eq_failUser hfe hfu hrole hm]
                        exact hse
                | false =>
                    cases uOk with
                    | true =>
                        rw [addMarketerToEvent_eq_failEvent hfe hfu hrole hm]
                        exact StoreInv_of_events_eq
                          (addEventParticipation_events _ uid eid) hinv
                    | false =>
                        rw [addMarketerToEvent_eq_failBoth hfe hfu hrole hm]
                        exact hinv
          · rw [addMarketerToEvent_eq_forbidden eOk uOk hfe hfu hrole]
            exact hinv

theorem StoreInv_removeMarketerFromEvent {st : Store} (hinv : StoreInv st)
    (eid uid : Nat) (eOk uOk : Bool) :
    StoreInv (removeMarketerFromEvent st eid uid eOk uOk).1 := by
  cases hfe : findEvent st eid with
  | none => rw [removeMarketerFromEvent_eq_noevent uid eOk uOk hfe]; exact hinv
  | some e =>
      have hse : StoreInv
          (saveEvent st { e with marketers := e.marketers.filter (fun m => m != uid) }) :=
        StoreInv_saveEvent hinv
          (EventInv_setMarketers (hinv e (List.mem_of_find?_eq_some hfe)) _)
      cases eOk with
      | true =>
          cases uOk with
          | true =>
              rw [removeMarketerFromEvent_eq_ok uid hfe]
              exact StoreInv_of_events_eq (removeEventParticipation_events _ uid eid) hse
          | false =>
              rw [removeMarketerFromEvent_eq_failUser uid hfe]
              exact hse
      | false =>
          cases uOk with
          | true =>
              rw [removeMarketerFromEvent_eq_failEvent uid hfe]
              exact StoreInv_of_events_eq (removeEventParticipation_events _ uid eid) hinv
          | false =>
              rw [removeMarketerFromEvent_eq_failBoth uid hfe]
              exact hinv

/-! ### Further helper lemmas used by the claim theorems -/

theorem findUser_addEventParticipation {st : Store} {uid : Nat} {u : User} (eid : Nat)
    (h : findUser st uid = some u) :
    ∃ u1, findUser (addEventParticipation st uid eid) uid = some u1 ∧
      u1.eventParticipation.contains eid = true ∧ u1.role = u.role ∧ u1.id = u.id := by
  by_cases hc : u.eventParticipation.contains eid = true
  · have heq : addEventParticipation st uid eid = st := by
      simp only [addEventParticipation, h]
      rw [if_pos hc]
    rw [heq]
    exact ⟨u, h, hc, rfl, rfl⟩
  · have heq : addEventParticipation st uid eid =
        saveUser st { u with eventParticipation := u.eventParticipation ++ [eid] } := by
      simp only [addEventParticipation, h]
      rw [if_neg hc]
    rw [heq]
    exact ⟨_, findUser_saveUser _ h rfl, by simp, rfl, rfl⟩

/-! ### Claim theorems -/

/-- C1: for every event and user at most one Pending concierge request exists
per (event, user) pair: `requestConcierge` fails with the Conflict error when
a Pending request for the pair already exists, otherwise appends a new
Pending request with `requestedAt = now` (so prior Approved/Rejected requests
do not block it), and every operation of the engine — request, review,
cancel, check-in, join and leave — preserves the invariant. -/
theorem pending_uniqueness_invariant (st : Store) (hinv : StoreInv st) :
    (∀ eid uid now rid e, findEvent st eid = some e → hasPending e uid = true →
      requestConcierge st eid uid now rid = (st, Except.error Err.conflict)) ∧
    (∀ eid uid now rid e, findEvent st eid = some e → hasPending e uid = false →
      (requestConcierge st eid uid now rid).2 = Except.ok () ∧
      ∃ e1, findEvent (requestConcierge st eid uid now rid).1 eid = some e1 ∧
        e1.conciergeRequests = e.conciergeRequests ++
          [{ id := rid, user := uid, status := ReqStatus.Pending,
             requestedAt := now, reviewedAt := none }]) ∧
    (∀ eid uid now rid, StoreInv (requestConcierge st eid uid now rid).1) ∧
    (∀ eid reqId approve adm now,
      StoreInv (reviewConciergeRequest st eid reqId approve adm now).1) ∧
    (∀ eid uid, StoreInv (cancelConciergeRequest st eid uid).1) ∧
    (∀ eid ph c now, StoreInv (checkInAttendee st eid ph c now).1) ∧
    (∀ eid uid eOk uOk, StoreInv (addMarketerToEvent st eid uid eOk uOk).1) ∧
    (∀ eid uid eOk uOk, StoreInv (removeMarketerFromEvent st eid uid eOk uOk).1) := by
  refine ⟨?_, ?_, ?_, ?_, ?_, ?_, ?_, ?_⟩
  · intro eid uid now rid e hfe hp
    exact requestConcierge_eq_dup uid now rid hfe hp
  · intro eid uid now rid e hfe hp
    rw [requestConcierge_eq_ok uid now rid hfe hp]
    exact ⟨rfl, _, findEvent_saveEvent _ hfe rfl, rfl⟩
  · exact fun eid uid now rid => StoreInv_requestConcierge hinv eid uid now rid
  · exact fun eid reqId approve adm now =>
      StoreInv_reviewConciergeRequest hinv eid reqId approve adm now
  · exact fun eid uid => StoreInv_cancelConciergeRequest hinv eid uid
  · exact fun eid ph c now => StoreInv_checkInAttendee hinv eid ph c now
  · exact fun eid uid eOk uOk => StoreInv_addMarketerToEvent hinv eid uid eOk uOk
  · exact fun eid uid eOk uOk => StoreInv_removeMarketerFromEvent hinv eid uid eOk uOk

/-- Witness for C1 at a concrete store: user 10 already holds a Pending
request on event 1, so a second request is rejected with the Conflict
error. -/
theorem pending_uniqueness_invariant_witness :
    requestConcierge stPending 1 10 200 51 = (stPending, Except.error Err.conflict) :=
  (pending_uniqueness_invariant stPending
      (fun e he u => by
        have he2 : e = evPending := by simpa [stPending] using he
        subst he2
        exact List.countP_le_length _)).1 1 10 200 51 evPending rfl rfl

/-- C2 counterexample: on a store where event 1 exists and user 5 is a
marketer not yet joined, running `addMarketerToEvent` with the event-side
write committing and the user-side write failing returns the generic internal
error — not a distinct PartialFailure — and performs no retry: at return the
event lists the marketer while the user's participation set does not list the
event, and the call reports neither convergence nor PartialFailure. -/
theorem dualWrite_divergence_counterexample :
    (addMarketerToEvent stJoin 1 5 true false).2 = Except.error Err.internal ∧
    Err.internal ≠ Err.partialFailure ∧
    (∃ e1, findEvent (addMarketerToEvent stJoin 1 5 true false).1 1 = some e1 ∧
      e1.marketers.contains 5 = true) ∧
    (∃ u1, findUser (addMarketerToEvent stJoin 1 5 true false).1 5 = some u1 ∧
      u1.eventParticipation.contains 1 = false) := by
  exact ⟨rfl, by decide, ⟨_, rfl, rfl⟩, ⟨_, rfl, rfl⟩⟩

/-- C2 (amended): when the dual write is attempted and either side's write
fails, the coordinator never reports plain success — the `Promise.all`
rejection makes the whole call fail — but the failure surfaces as the generic
internal error rather than a distinct PartialFailure, no retry to convergence
happens, and with the event side committed and the user side failed the
divergence persists in the returned state. -/
theorem dualWrite_partial_failure_generic (st : Store) (eid uid : Nat)
    (eOk uOk : Bool) (hw : (eOk && uOk) = false) :
    (∀ e u, findEvent st eid = some e → findUser st uid = some u →
      u.role = Role.Marketer → e.marketers.contains uid = false →
      (addMarketerToEvent st eid uid eOk uOk).2 = Except.error Err.internal) ∧
    (∀ e, findEvent st eid = some e →
      (removeMarketerFromEvent st eid uid eOk uOk).2 = Except.error Err.internal) ∧
    (∀ e u, findEvent st eid = some e → findUser st uid = some u →
      u.role = Role.Marketer → e.marketers.contains uid = false →
      (∃ e1, findEvent (addMarketerToEvent st eid uid true false).1 eid = some e1 ∧
        e1.marketers.contains uid = true) ∧
      findUser (addMarketerToEvent st eid uid true false).1 uid = some u) := by
  refine ⟨?_, ?_, ?_⟩
  · intro e u hfe hfu hrole hm
    cases eOk with
    | true =>
        cases uOk with
        | true => exact Bool.noConfusion hw
        | false => rw [addMarketerToEvent_eq_failUser hfe hfu hrole hm]
    | false =>
        cases uOk with
        | true => rw [addMarketerToEvent_eq_failEvent hfe hfu hrole hm]
        | false => rw [addMarketerToEvent_eq_failBoth hfe hfu hrole hm]
  · intro e hfe
    cases eOk with
    | true =>
        cases uOk with
        | true => exact Bool.noConfusion hw
        | false => rw [removeMarketerFromEvent_eq_failUser uid hfe]
    | false =>
        cases uOk with
        | true => rw [removeMarketerFromEvent_eq_failEvent uid hfe]
        | false => rw [removeMarketerFromEvent_eq_failBoth uid hfe]
  · intro e u hfe hfu hrole hm
    rw [addMarketerToEvent_eq_failUser hfe hfu hrole hm]
    constructor
    · exact ⟨_, findEvent_saveEvent _ hfe rfl, by simp⟩
    · rw [findUser_eq_of_users_eq (saveEvent_users st _) uid]
      exact hfu

/-- Witness for the amended C2 at a concrete store: a leave whose user-side
write fails reports the generic internal error. -/
theorem dualWrite_partial_failure_generic_witness :
    (removeMarketerFromEvent stJoin 1 5 true false).2 = Except.error Err.internal :=
  (dualWrite_partial_failure_generic stJoin 1 5 true false rfl).2.1 evBlank rfl

/-- C9: `removeMarketerFromEvent` (the `leave` operation) on a nonexistent
event reports the generic internal error — its catch-all wraps the
NotFoundException of `findOne` into an INTERNAL_SERVER_ERROR — instead of
the distinct NotFound the taxonomy (and the controller's own NOT_FOUND
response annotation) requires. -/
theorem leave_missing_event_generic_error :
    removeMarketerFromEvent stEmpty 1 5 true true =
      (stEmpty, Except.error Err.internal) ∧
    Err.internal ≠ Err.notFound := by
  exact ⟨rfl, by decide⟩

/-- C10: two runs of `reviewConciergeRequest` that differ only in the
reviewer identity produce identical results and identical resulting stores:
the source never reads `adminId`. -/
theorem review_reviewer_irrelevant (st : Store) (eid reqId : Nat) (approve : Bool)
    (adm1 adm2 now : Nat) :
    reviewConciergeRequest st eid reqId approve adm1 now =
      reviewConciergeRequest st eid reqId approve adm2 now := rfl

/-- C3: `addMarketerToEvent` (the `join` operation) fails with the Forbidden
error when the target user is not a marketer; when the user is already in
`event.marketers` it succeeds as a no-op without mutating the store; otherwise
it adds the user to `event.marketers` and the event to
`user.eventParticipation` and returns the refreshed event view; joining twice
yields the same state as joining once. -/
theorem join_correct (st : Store) (eid uid : Nat) (e : Event) (u : User)
    (he : findEvent st eid = some e) (hu : findUser st uid = some u) :
    (u.role ≠ Role.Marketer →
      addMarketerToEvent st eid uid true true = (st, Except.error Err.forbidden)) ∧
    (u.role = Role.Marketer → e.marketers.contains uid = true →
      addMarketerToEvent st eid uid true true = (st, Except.ok e)) ∧
    (u.role = Role.Marketer → e.marketers.contains uid = false →
      ∃ e1 u1,
        (addMarketerToEvent st eid uid true true).2 = Except.ok e1 ∧
        findEvent (addMarketerToEvent st eid uid true true).1 eid = some e1 ∧
        e1.marketers.contains uid = true ∧
        findUser (addMarketerToEvent st eid uid true true).1 uid = some u1 ∧
        u1.eventParticipation.contains eid = true) ∧
    (u.role = Role.Marketer →
      (addMarketerToEvent (addMarketerToEvent st eid uid true true).1
        eid uid true true).1 = (addMarketerToEvent st eid uid true true).1) := by
  refine ⟨?_, ?_, ?_, ?_⟩
  · intro hrole
    exact addMarketerToEvent_eq_forbidden true true he hu hrole
  · intro hrole hm
    exact addMarketerToEvent_eq_member true true he hu hrole hm
  · intro hrole hm
    rw [addMarketerToEvent_eq_add he hu hrole hm]
    have hu1 : findUser
        (saveEvent st { e with marketers := e.marketers ++ [uid] }) uid = some u := by
      rw [findUser_eq_of_users_eq (saveEvent_users st _) uid]
      exact hu
    obtain ⟨u1, hu2, hc1, hrole1, hid1⟩ := findUser_addEventParticipation eid hu1
    refine ⟨{ e with marketers := e.marketers ++ [uid] }, u1, rfl, ?_, by simp, hu2, hc1⟩
    rw [findEvent_eq_of_events_eq (addEventParticipation_events _ uid eid) eid]
    exact findEvent_saveEvent _ he rfl
  · intro hrole
    cases hm : e.marketers.contains uid with
    | true =>
        rw [addMarketerToEvent_eq_member true true he hu hrole hm]
        show (addMarketerToEvent st eid uid true true).1 = st
        rw [addMarketerToEvent_eq_member true true he hu hrole hm]
    | false =>
        rw [addMarketerToEvent_eq_add he hu hrole hm]
        have hfe2 : findEvent (addEventParticipation
            (saveEvent st { e with marketers := e.marketers ++ [uid] }) uid eid) eid =
            some { e with marketers := e.marketers ++ [uid] } := by
          rw [findEvent_eq_of_events_eq (addEventParticipation_events _ uid eid) eid]
          exact findEvent_saveEvent _ he rfl
        have hu1 : findUser
            (saveEvent st { e with marketers := e.marketers ++ [uid] }) uid = some u := by
          rw [findUser_eq_of_users_eq (saveEvent_users st _) uid]
          exact hu
        obtain ⟨u1, hu2, hc1, hrole1, hid1⟩ := findUser_addEventParticipation eid hu1
        show (addMarketerToEvent (addEventParticipation
          (saveEvent st { e with marketers := e.marketers ++ [uid] }) uid eid)
          eid uid true true).1 = addEventParticipation
          (saveEvent st { e with marketers := e.marketers ++ [uid] }) uid eid
        rw [addMarketerToEvent_eq_member true true hfe2 hu2 (hrole1.trans hrole) (by simp)]

/-- Witness for C3 at a concrete store: marketer 5 joins event 1; both
back-references are set afterwards. -/
theorem join_correct_witness :
    ∃ e1 u1,
      (addMarketerToEvent stJoin 1 5 true true).2 = Except.ok e1 ∧
      findEvent (addMarketerToEvent stJoin 1 5 true true).1 1 = some e1 ∧
      e1.marketers.contains 5 = true ∧
      findUser (addMarketerToEvent stJoin 1 5 true true).1 5 = some u1 ∧
      u1.eventParticipation.contains 1 = true :=
  (join_correct stJoin 1 5 evBlank usrMarketer rfl rfl).2.2.1 rfl rfl

/-- C4: `reviewConciergeRequest` fails with NotFound when the event or the
request id does not exist, fails with the Conflict error when the request is
not Pending (a second review of a terminal request is an error, never a
silent no-op), and on a Pending request sets the status according to the
decision and `reviewedAt = now`. -/
theorem review_correct (st : Store) (eid reqId adm now : Nat) (approve : Bool) :
    (findEvent st eid = none →
      reviewConciergeRequest st eid reqId approve adm now =
        (st, Except.error Err.notFound)) ∧
    (∀ e, findEvent st eid = some e →
      e.conciergeRequests.find? (fun r => r.id == reqId) = none →
      reviewConciergeRequest st eid reqId approve adm now =
        (st, Except.error Err.notFound)) ∧
    (∀ e req, findEvent st eid = some e →
      e.conciergeRequests.find? (fun r => r.id == reqId) = some req →
      req.status ≠ ReqStatus.Pending →
      reviewConciergeRequest st eid reqId approve adm now =
        (st, Except.error Err.conflict)) ∧
    (∀ e req, findEvent st eid = some e →
      e.conciergeRequests.find? (fun r => r.id == reqId) = some req →
      req.status = ReqStatus.Pending →
      (reviewConciergeRequest st eid reqId approve adm now).2 = Except.ok () ∧
      ∃ e1 req1,
        findEvent (reviewConciergeRequest st eid reqId approve adm now).1 eid = some e1 ∧
        e1.conciergeRequests.find? (fun r => r.id == reqId) = some req1 ∧
        req1.status = (if approve then ReqStatus.Approved else ReqStatus.Rejected) ∧
        req1.reviewedAt = some now) := by
  refine ⟨?_, ?_, ?_, ?_⟩
  · intro h
    exact reviewConciergeRequest_eq_missing reqId approve adm now h
  · intro e hfe hfr
    exact reviewConciergeRequest_eq_noreq reqId approve adm now hfe hfr
  · intro e req hfe hfr hs
    exact reviewConciergeRequest_eq_terminal reqId approve adm now hfe hfr hs
  · intro e req hfe hfr hs
    rw [reviewConciergeRequest_eq_ok reqId approve adm now hfe hfr hs]
    refine ⟨rfl, _,
      { req with
        status := if approve then ReqStatus.Approved else ReqStatus.Rejected
        reviewedAt := some now },
      findEvent_saveEvent _ hfe rfl, ?_, rfl, rfl⟩
    show (updateFirst (fun r => r.id == reqId) _ e.conciergeRequests).find?
      (fun r => r.id == reqId) = _
    rw [find?_updateFirst_agree
      (f := fun r =>
        { r with
          status := if approve then ReqStatus.Approved else ReqStatus.Rejected
          reviewedAt := some now })
      (fun r => rfl) e.conciergeRequests]
    have hfr2 : List.find? (fun r => r.id == reqId) e.conciergeRequests = some req := hfr
    rw [hfr2, Option.map_some']

/-- Witness for C4 at a concrete store: approving the Pending request 50 on
event 1 succeeds and stamps reviewedAt. -/
theorem review_correct_witness :
    (reviewConciergeRequest stPending 1 50 true 99 200).2 = Except.ok () ∧
    ∃ e1 req1,
      findEvent (reviewConciergeRequest stPending 1 50 true 99 200).1 1 = some e1 ∧
      e1.conciergeRequests.find? (fun r => r.id == 50) = some req1 ∧
      req1.status = (if true then ReqStatus.Approved else ReqStatus.Rejected) ∧
      req1.reviewedAt = some 200 :=
  (review_correct stPending 1 50 99 200 true).2.2.2 evPending
    { id := 50, user := 10, status := ReqStatus.Pending, requestedAt := 100,
      reviewedAt := none }
    rfl rfl rfl

/-- C5: for every attendee record `checkedIn` goes from false to true at most
once and never back: with an approved concierge, the first check-in of the
attendee at the head of the store succeeds and sets `checkedIn`,
`checkedInBy` and `checkedInTime`; a second check-in on the same attendee
fails with the Conflict error and leaves the state — including
`checkedInBy`/`checkedInTime` from the first call — unchanged. -/
theorem checkIn_transitions_once (st : Store) (eid c c2 now now2 : Nat) (ph : String)
    (e : Event) (a : Attendee) (rest : List Attendee)
    (he : findEvent st eid = some e)
    (happ : isApprovedConcierge e c = true)
    (happ2 : isApprovedConcierge e c2 = true)
    (hs : st.attendees = a :: rest)
    (hev : a.event = eid) (hph : a.phone = ph)
    (hci : a.checkedIn = false) :
    (checkInAttendee st eid ph c now).2 = Except.ok () ∧
    (checkInAttendee st eid ph c now).1.attendees =
      { a with
        checkedIn := true
        checkedInBy := some c
        checkedInTime := some now } :: rest ∧
    checkInAttendee (checkInAttendee st eid ph c now).1 eid ph c2 now2 =
      ((checkInAttendee st eid ph c now).1, Except.error Err.conflict) := by
  have hpa : (a.phone == ph && a.event == eid) = true := by simp [hph, hev]
  have hq : findAttendeesByQuery st eid ph =
      a :: rest.filter (fun x => x.phone == ph && x.event == eid) := by
    unfold findAttendeesByQuery
    rw [hs, List.filter_cons_of_pos (p := fun x : Attendee => x.phone == ph && x.event == eid) hpa]
  rw [checkInAttendee_eq_ok ph c now he happ hq hci]
  have hatt1 : (updateAttendee st a.id (fun x =>
      { x with
        checkedIn := true
        checkedInBy := some c
        checkedInTime := some now })).attendees =
      { a with
        checkedIn := true
        checkedInBy := some c
        checkedInTime := some now } :: rest := by
    show updateFirst (fun x => x.id == a.id) _ st.attendees = _
    rw [hs]
    simp [updateFirst]
  refine ⟨rfl, hatt1, ?_⟩
  have hfe1 : findEvent (updateAttendee st a.id (fun x =>
      { x with
        checkedIn := true
        checkedInBy := some c
        checkedInTime := some now })) eid = some e := by
    rw [findEvent_eq_of_events_eq (updateAttendee_events st a.id _) eid]
    exact he
  have hq2 : findAttendeesByQuery (updateAttendee st a.id (fun x =>
      { x with
        checkedIn := true
        checkedInBy := some c
        checkedInTime := some now })) eid ph =
      { a with
        checkedIn := true
        checkedInBy := some c
        checkedInTime := some now } ::
        rest.filter (fun x => x.phone == ph && x.event == eid) := by
    unfold findAttendeesByQuery
    rw [hatt1, List.filter_cons_of_pos
      (p := fun x : Attendee => x.phone == ph && x.event == eid)
      (a := { a with
        checkedIn := true
        checkedInBy := some c
        checkedInTime := some now })
      hpa]
  exact checkInAttendee_eq_already ph c2 now2 hfe1 happ2 hq2 rfl

/-- Witness for C5 at a concrete store: concierge 9 checks attendee 100 in
once, and the second attempt fails with the Conflict error. -/
theorem checkIn_transitions_once_witness :
    (checkInAttendee stCheckIn 1 "p1" 9 300).2 = Except.ok () ∧
    (checkInAttendee stCheckIn 1 "p1" 9 300).1.attendees =
      { attFresh with
        checkedIn := true
        checkedInBy := some 9
        checkedInTime := some 300 } :: [attDup] ∧
    checkInAttendee (checkInAttendee stCheckIn 1 "p1" 9 300).1 1 "p1" 9 301 =
      ((checkInAttendee stCheckIn 1 "p1" 9 300).1, Except.error Err.conflict) :=
  checkIn_transitions_once stCheckIn 1 9 9 300 301 "p1" evApproved attFresh [attDup]
    rfl rfl rfl rfl rfl rfl rfl

/-- C6: `checkInAttendee` fails with the Forbidden error when the calling
concierge is not in the event's Approved set; when the concierge is approved
but no attendee matches (event, phone) it fails with NotFound; when the store
returns several matching attendees the first one in store order is the one
checked in. -/
theorem checkIn_auth_and_lookup (st : Store) (eid c now : Nat) (ph : String)
    (e : Event) (he : findEvent st eid = some e) :
    (isApprovedConcierge e c = false →
      checkInAttendee st eid ph c now = (st, Except.error Err.forbidden)) ∧
    (isApprovedConcierge e c = true → findAttendeesByQuery st eid ph = [] →
      checkInAttendee st eid ph c now = (st, Except.error Err.notFound)) ∧
    (∀ a rest, isApprovedConcierge e c = true →
      findAttendeesByQuery st eid ph = a :: rest → a.checkedIn = false →
      checkInAttendee st eid ph c now =
        (updateAttendee st a.id (fun x =>
          { x with
            checkedIn := true
            checkedInBy := some c
            checkedInTime := some now }),
         Except.ok ())) := by
  refine ⟨?_, ?_, ?_⟩
  · intro ha
    exact checkInAttendee_eq_forbidden ph c now he ha
  · intro ha hq
    exact checkInAttendee_eq_noattendee ph c now he ha hq
  · intro a rest ha hq hc
    exact checkInAttendee_eq_ok ph c now he ha hq hc

/-- Witness for C6 at a concrete store: user 8 is not an approved concierge
for event 1, so the check-in is forbidden. -/
theorem checkIn_auth_and_lookup_witness :
    checkInAttendee stCheckIn 1 "p1" 8 300 = (stCheckIn, Except.error Err.forbidden) :=
  (checkIn_auth_and_lookup stCheckIn 1 8 300 "p1" evApproved rfl).1 rfl

/-- C7: `cancelConciergeRequest` fails with NotFound when the user has no
Pending request on the event — in particular when all their requests are
Approved or Rejected — and otherwise removes exactly the first Pending
request of the user in request order, leaving every other request in
place. -/
theorem cancel_removes_first_pending (st : Store) (eid uid : Nat) :
    (findEvent st eid = none →
      cancelConciergeRequest st eid uid = (st, Except.error Err.notFound)) ∧
    (∀ e, findEvent st eid = some e →
      (∀ r ∈ e.conciergeRequests,
        (r.user == uid && r.status == ReqStatus.Pending) = false) →
      cancelConciergeRequest st eid uid = (st, Except.error Err.notFound)) ∧
    (∀ e l1 r l2, findEvent st eid = some e →
      e.conciergeRequests = l1 ++ r :: l2 →
      (∀ x ∈ l1, (x.user == uid && x.status == ReqStatus.Pending) = false) →
      (r.user == uid && r.status == ReqStatus.Pending) = true →
      (cancelConciergeRequest st eid uid).2 = Except.ok () ∧
      ∃ e1, findEvent (cancelConciergeRequest st eid uid).1 eid = some e1 ∧
        e1.conciergeRequests = l1 ++ l2) := by
  refine ⟨?_, ?_, ?_⟩
  · exact fun h => cancelConciergeRequest_eq_missing uid h
  · intro e hfe hall
    exact cancelConciergeRequest_eq_nopending uid hfe (findIdx?_start_none _ hall 0)
  · intro e l1 r l2 hfe hdecomp hl1 hr
    have hi : e.conciergeRequests.findIdx?
        (fun x => x.user == uid && x.status == ReqStatus.Pending) = some l1.length := by
      rw [hdecomp]
      simpa using findIdx?_start_first
        (p := fun x : ConciergeRequest => x.user == uid && x.status == ReqStatus.Pending)
        hr l1 l2 hl1 0
    rw [cancelConciergeRequest_eq_ok uid hfe hi]
    refine ⟨rfl, _, findEvent_saveEvent _ hfe rfl, ?_⟩
    show e.conciergeRequests.eraseIdx l1.length = l1 ++ l2
    rw [hdecomp]
    exact eraseIdx_append_cons l1 r l2

/-- Witness for C7 at a concrete store: user 10 cancels their only Pending
request on event 1 and the request sequence becomes empty. -/
theorem cancel_removes_first_pending_witness :
    (cancelConciergeRequest stPending 1 10).2 = Except.ok () ∧
    ∃ e1, findEvent (cancelConciergeRequest stPending 1 10).1 1 = some e1 ∧
      e1.conciergeRequests = [] ++ [] :=
  (cancel_removes_first_pending stPending 1 10).2.2 evPending []
    { id := 50, user := 10, status := ReqStatus.Pending, requestedAt := 100,
      reviewedAt := none }
    [] rfl rfl (fun x hx => absurd hx (List.not_mem_nil x)) rfl

/-- C8 counterexample: for user 7 the event holds an older Rejected request
followed by a newer Pending one; the code returns the first (oldest) match,
Rejected, while the claim demands the most recently created one, Pending. -/
theorem myStatus_not_most_recent :
    myConciergeStatus evRejectedThenPending 7 = some ReqStatus.Rejected ∧
    specMostRecentStatus evRejectedThenPending 7 = some ReqStatus.Pending ∧
    myConciergeStatus evRejectedThenPending 7 ≠
      specMostRecentStatus evRejectedThenPending 7 := by
  exact ⟨rfl, rfl, by decide⟩

/-- C8 (amended): the per-event status attached by `getConciergeAssignments`
is the status of the first request of the user in request order (the oldest),
or none when the user has no request on the event. -/
theorem myStatus_first_request (e : Event) (uid : Nat) :
    ((∀ r ∈ e.conciergeRequests, (r.user == uid) = false) →
      myConciergeStatus e uid = none) ∧
    (∀ l1 r l2, e.conciergeRequests = l1 ++ r :: l2 →
      (∀ x ∈ l1, (x.user == uid) = false) → (r.user == uid) = true →
      myConciergeStatus e uid = some r.status) := by
  constructor
  · intro hall
    have h0 : e.conciergeRequests.find? (fun r => r.user == uid) = none :=
      List.find?_eq_none.mpr (fun a ha => by simp [hall a ha])
    unfold myConciergeStatus
    rw [h0]
    rfl
  · intro l1 r l2 hdecomp hl1 hr
    unfold myConciergeStatus
    rw [hdecomp,
      find?_first (p := fun x : ConciergeRequest => x.user == uid) hr l1 l2 hl1,
      Option.map_some']

/-- Witness for the amended C8: on the Rejected-then-Pending event, the
status reported for user 7 is that of the oldest request, Rejected. -/
theorem myStatus_first_request_witness :
    myConciergeStatus evRejectedThenPending 7 = some ReqStatus.Rejected :=
  (myStatus_first_request evRejectedThenPending 7).2 []
    { id := 10, user := 7, status := ReqStatus.Rejected, requestedAt := 1,
      reviewedAt := some 2 }
    [{ id := 11, user := 7, status := ReqStatus.Pending, requestedAt := 3,
       reviewedAt := none }]
    rfl (fun x hx => absurd hx (List.not_mem_nil x)) rfl
